import Mathlib

/-!
Verification development for the terminal-output capture subsystem of
`anemoi-training` (`src/anemoi/training/diagnostics/mlflow/logger.py`).

Shallow embedding conventions:
* A raw byte string (Python `bytes`) is a `List Nat`, each element a byte value.
* Fallible Python code (statements that can raise) is embedded in `Except` /
  an `Option Err` error component; an exception carries the state as mutated
  so far, mirroring Python semantics.
* Recursions over lists that the Python code performs via a regex scanner are
  written with an explicit fuel argument equal to the list length, so that
  every definition is structurally recursive and kernel-evaluable; every
  scanner step consumes at least one byte, so fuel equal to the input length
  never runs out.
-/

namespace AnemoiLogger

/-- Python exceptions that the modelled code can raise. -/
inductive Err where
  | valueError : Err
  | keyError : Err
  | runtimeError : Err
deriving DecidableEq, Repr

/-! ## Byte-level control-sequence filter

Embeds the regex `\001?\033\[((?:\d|;)*)([a-dA-D])\002?` from
`LogsMonitor._store_buffered_logs` and the `_handle_csi` closure.
Byte values: 1 = SOH, 2 = STX, 27 = ESC, 91 = left bracket, 13 = CR,
10 = LF, 48..57 = digits, 59 = semicolon, 65..68 = A..D, 97..100 = a..d. -/

/-- A byte admissible in the parameter group `(?:\d|;)*`: a digit or `;`. -/
def isParamByte (b : Nat) : Bool := (48 ≤ b && b ≤ 57) || b == 59

/-- A byte admissible as the final letter `[a-dA-D]`. -/
def isLetterByte (b : Nat) : Bool := (97 ≤ b && b ≤ 100) || (65 ≤ b && b ≤ 68)

/-- Consume the optional trailing STX byte (`\002?`). -/
def dropSTX (r : List Nat) : List Nat :=
  match r with
  | [] => []
  | x :: xs => if x = 2 then xs else x :: xs

/-- After `ESC [`, take the parameter group `ps` (already split off by
`takeWhile`/`dropWhile`) and require a final letter in `[a-dA-D]` at the head
of the remainder `d`. -/
def csiTail (ps : List Nat) (d : List Nat) : Option (List Nat × Nat × List Nat) :=
  match d with
  | c :: rest' => if isLetterByte c then some (ps, c, dropSTX rest') else none
  | [] => none

/-- Match the CSI regex at the very start of `l` with the mandatory
`ESC [` core; returns `(params, letter, rest)` where `rest` is the input
after the match (an optional trailing STX byte is consumed). -/
def csiCore (l : List Nat) : Option (List Nat × Nat × List Nat) :=
  match l with
  | e :: br :: rest =>
      if e = 27 ∧ br = 91 then
        csiTail (rest.takeWhile isParamByte) (rest.dropWhile isParamByte)
      else none
  | _ => none

/-- Match the full CSI regex (with the optional leading SOH) at the start of
`l`.  If the SOH is present but no `ESC [ ... letter` follows, the regex
backtracks to not consuming the SOH and then fails on `\033` ≠ SOH, so the
whole match fails — mirrored by trying the core only after the SOH. -/
def csiAt (l : List Nat) : Option (List Nat × Nat × List Nat) :=
  match l with
  | [] => none
  | x :: rest => if x = 1 then csiCore rest else csiCore (x :: rest)

/-- The `(params, letter)` groups of the leftmost non-overlapping matches of
the CSI regex in `l`, in order — the sequence `finditer` yields.  `fuel`
bounds the scan; `fuel = l.length` is always sufficient. -/
def csiMatches : Nat → List Nat → List (List Nat × Nat)
  | 0, _ => []
  | _, [] => []
  | fuel + 1, b :: bs =>
      match csiAt (b :: bs) with
      | some (p, c, rest) => (p, c) :: csiMatches fuel rest
      | none => csiMatches fuel bs

/-- `re.sub(ansi_csi_re, b"", line)`: delete the leftmost non-overlapping
matches of the CSI regex.  `fuel = l.length` is always sufficient. -/
def removeCSIAux : Nat → List Nat → List Nat
  | 0, l => l
  | _, [] => []
  | fuel + 1, b :: bs =>
      match csiAt (b :: bs) with
      | some (_, _, rest) => removeCSIAux fuel rest
      | none => b :: removeCSIAux fuel bs

/-- `_remove_csi(line)` from the source. -/
def removeCSI (l : List Nat) : List Nat := removeCSIAux l.length l

/-- Python's `needle in line` on bytes: substring (contiguous infix) test. -/
def bytesIn (needle l : List Nat) : Bool := decide (needle <:+: l)

/-- The byte string `b"0%"`. -/
def pctBytes : List Nat := [48, 37]

/-- The byte string `b"[INFO]"`. -/
def infoBytes : List Nat := [91, 73, 78, 70, 79, 93]

/-- The byte string `b"[DEBUG]"`. -/
def debugBytes : List Nat := [91, 68, 69, 66, 85, 71, 93]

/-- `int(arg.decode()) if arg else 1` succeeds exactly when the parameter
group is empty (then `arg` is falsy and `1` is used) or consists solely of
digits; a group containing `;` makes `int` raise `ValueError`. -/
def argParses (p : List Nat) : Bool :=
  p.isEmpty || p.all (fun b => 48 ≤ b && b ≤ 57)

/-- The parenthesized retention guard of `_handle_csi`:
`b"0%" not in line and not self._shutdown and b"[INFO]" not in line and
b"[DEBUG]" not in line`, evaluated on the current value of `line`. -/
def keepCond (shutdown : Bool) (l : List Nat) : Bool :=
  !(bytesIn pctBytes l) && !shutdown &&
    !(bytesIn infoBytes l) && !(bytesIn debugBytes l)

/-- The `for match in ansi_csi_re.finditer(line)` loop body of `_handle_csi`:
threads the current value of `line` through the matches of the original line.
For each match it first evaluates `int(arg.decode())` (possible
`ValueError`), then, when the letter is `A` (65) and the current line
contains neither `b"0%"`, `b"[INFO]"` nor `b"[DEBUG]"` and the monitor is not
shutting down, replaces the line by `b""`. -/
def handleCSILoop (shutdown : Bool) :
    List (List Nat × Nat) → List Nat → Except Unit (List Nat)
  | [], line => .ok line
  | (p, c) :: ms, line =>
      if argParses p then
        handleCSILoop shutdown ms
          (if c == 65 && keepCond shutdown line then [] else line)
      else .error ()

/-- The suppression-loop part of `_handle_csi line` (before `_remove_csi`). -/
def handleCSISuppress (shutdown : Bool) (line : List Nat) : Except Unit (List Nat) :=
  handleCSILoop shutdown (csiMatches line.length line) line

/-- `_handle_csi(line)` from `_store_buffered_logs`: run the suppression loop
over the matches of `line`, then strip all matches from the result. -/
def handleCSI (shutdown : Bool) (line : List Nat) : Except Unit (List Nat) :=
  (handleCSISuppress shutdown line).map (fun r => removeCSIAux line.length r)

/-- `line.rsplit(b"\r")[-1]`: the content after the last carriage return. -/
def afterLastCR : List Nat → List Nat
  | [] => []
  | b :: bs =>
      if b = 13 then afterLastCR bs
      else if 13 ∈ bs then afterLastCR bs
      else b :: bs

/-- One line's processing in the write loop of `_store_buffered_logs`:
`line = _handle_csi(line)` followed by `line = line.rsplit(b"\r")[-1]`. -/
def filterLine (shutdown : Bool) (line : List Nat) : Except Unit (List Nat) :=
  match handleCSI shutdown line with
  | .ok r => .ok (afterLastCR r)
  | .error e => .error e

/-- Whether the suppression loop sees at least one cursor-up (`A`) match —
the scanner-level rendering of "the line contains an ANSI cursor-up
sequence". -/
def hasCursorUpMatch (l : List Nat) : Bool :=
  (csiMatches l.length l).any (fun pc => pc.2 == 65)

/-- Whether every match's parameter group survives `int(...)`, i.e. the line
makes `_handle_csi` raise no `ValueError`. -/
def allArgsParse (l : List Nat) : Bool :=
  (csiMatches l.length l).all (fun pc => argParses pc.1)

/-- The full suppression condition of `_handle_csi`, read off the original
line: a cursor-up match is present, the line does not contain `b"0%"`, the
monitor is not shutting down, and the line contains neither `b"[INFO]"` nor
`b"[DEBUG]"`. -/
def suppressCond (shutdown : Bool) (l : List Nat) : Bool :=
  hasCursorUpMatch l && keepCond shutdown l

/-! ## Background collector loop (`LogsMonitor._log_collector`)

The loop body checks `self._shutdown`, then sleeps `self._log_time_interval`
seconds, adds that interval to a counter, and flushes when the counter
exceeds `self._log_capture_interval`.  Time is modelled in whole seconds;
the shutdown flag, set by the owner at time `tSet`, reads as set exactly at
the check instants whose time is `≥ tSet`. -/

/-- `self._log_capture_interval = 1` from `LogsMonitor.__init__`. -/
def log_capture_interval : Nat := 1

/-- The default `log_time_interval=30.0` parameter of `LogsMonitor.__init__`. -/
def default_log_time_interval : Nat := 30

/-- One run of the `_log_collector` loop: returns the time at which the loop
observes the shutdown flag and exits, together with the times of the flush
calls it performed.  `fuel` bounds the iteration count; `fuel = tSet` is
sufficient whenever `1 ≤ interval`. -/
def collectorLoop : Nat → Nat → Nat → Nat → Nat → Nat × List Nat
  | 0, _, _, t, _ => (t, [])
  | fuel + 1, interval, tSet, t, counter =>
      if tSet ≤ t then (t, [])
      else
        match collectorLoop fuel interval tSet (t + interval)
            (if log_capture_interval < counter + interval then 0
             else counter + interval) with
        | (e, fs) =>
            if log_capture_interval < counter + interval then (e, (t + interval) :: fs)
            else (e, fs)

/-- The instant at which the collector thread exits, when the owner sets the
shutdown flag at time `tSet` and the loop starts at time `0`. -/
def collectorExitTime (interval tSet : Nat) : Nat :=
  (collectorLoop tSet interval tSet 0 0).1

/-! ## `health_check`

`health_check(tracking_uri)` reads `MLFLOW_TRACKING_TOKEN` from the
environment (`none` = unset), sends a GET with an
`Authorization: Bearer <token>` header, and inspects the response body.
The request sent and the outcome are both returned. -/

/-- Python string interpolation of the token: `f"Bearer {token}"` renders an
unset (`None`) token as the string `None`. -/
def pyStrOfToken : Option String → String
  | none => "None"
  | some s => s

/-- Python truthiness test `not token`: true for an unset token and for the
empty string. -/
def pyFalsyToken : Option String → Bool
  | none => true
  | some s => s == ""

/-- The HTTP request `health_check` issues. -/
structure HealthRequest where
  url : String
  authHeader : String
deriving DecidableEq, Repr

/-- The fixed part of the failure message, naming the server. -/
def healthErrorBase (uri : String) : String :=
  "Could not connect to MLflow server at " ++ uri ++ ". "

/-- The hint appended when the token is falsy. -/
def healthAuthHint : String :=
  "The server may require authentication, did you forget to turn it on in the config?"

/-- `health_check(tracking_uri)`: returns normally when the response body is
exactly `OK`, otherwise raises `ConnectionError` with a message that names
the server and, when `not token`, additionally suggests enabling
authentication. -/
def health_check (uri : String) (token : Option String) (responseText : String) :
    HealthRequest × Except String Unit :=
  let req : HealthRequest :=
    { url := uri ++ "/health", authHeader := "Bearer " ++ pyStrOfToken token }
  if responseText = "OK" then (req, .ok ())
  else
    (req, .error (if pyFalsyToken token
      then healthErrorBase uri ++ healthAuthHint
      else healthErrorBase uri))

/-! ## Hyperparameter cleaning and batching
(`AnemoiMLflowLogger._clean_params` / `log_hyperparams`)

Parameters arrive already flattened (flattening is done by the external
`_flatten_dict` collaborator with a `.` delimiter); a parameter dict is
modelled as an insertion-ordered association list, values by their `str()`
form. -/

/-- Python's `key.startswith(prefix)`: characterwise prefix test (written on
the character lists so that it evaluates in the kernel; `String.isPrefixOf`
computes the same Boolean through a byte-position loop). -/
def strStartsWith (p k : String) : Bool := p.data.isPrefixOf k.data

/-- Python's `str(v)[:250]`-style slicing: the first `n` characters (written
on the character list; equal to `String.take`, see `strTake_eq_take`). -/
def strTake (s : String) (n : Nat) : String := ⟨s.data.take n⟩

/-- The `prefixes_to_remove` list of `_clean_params`. -/
def prefixes_to_remove : List String :=
  ["hardware", "data", "dataloader", "model", "training", "diagnostics",
   "metadata.config"]

/-- `_clean_params`: delete every parameter whose key starts with one of the
prefixes (deleting keys from a Python dict preserves the order of the
remaining entries, i.e. is a filter on the association list). -/
def clean_params (params : List (String × String)) : List (String × String) :=
  params.filter (fun kv => !(prefixes_to_remove.any (fun p => strStartsWith p kv.1)))

/-- `mlflow.entities.Param`. -/
structure MParam where
  key : String
  value : String
deriving DecidableEq, Repr

/-- `Param(key=k, value=str(v)[:250])` over the whole dict. -/
def mkParamList (params : List (String × String)) : List MParam :=
  params.map (fun kv => { key := kv.1, value := strTake kv.2 250 })

/-- The slices `params_list[idx : idx + 100]` for `idx in range(0, len, 100)`.
`fuel = l.length` is always sufficient. -/
def batchesAux : Nat → List MParam → List (List MParam)
  | 0, _ => []
  | _, [] => []
  | fuel + 1, p :: ps => ((p :: ps).take 100) :: batchesAux fuel ((p :: ps).drop 100)

/-- `AnemoiMLflowLogger.log_hyperparams` (params already flattened): when the
`log_hyperparams` flag is set, clean, truncate, and emit the sequence of
`log_batch` calls (each element is the `params` argument of one call). -/
def log_hyperparams (flagLogHparams : Bool) (params : List (String × String)) :
    List (List MParam) :=
  if flagLogHparams then
    let pl := mkParamList (clean_params params)
    batchesAux pl.length pl
  else []

/-! ## Monitor lifecycle and the process-wide stream patch

`LogsMonitor` state: the class-level `_buffer_registry` (a set of monitor
identities, insertion ordered), `sys.stdout.write` / `sys.stderr.write` and
the captured `_old_out_write` / `_old_err_write` class attributes, and the
per-monitor instance state.

Write functions are modelled by identity: `WriteFn.original` is the pristine
sink write function; each call of `_install_stream_patches` creates fresh
wrapper closures, tagged by the value of the (ghost) `installCount` at that
install.  A Python attribute holding `None` is `Option.none`; the byte
buffer is modelled by its pending bytes (the region `[0, tell())`), since
`_store_buffered_logs` reads exactly `tell()` bytes and rewinds. -/

/-- Identity of a sink write function. -/
inductive WriteFn where
  | original : WriteFn
  | wrapped (gen : Nat) : WriteFn
deriving DecidableEq, Repr

/-- The process-wide stream state: the two sink write attributes and the two
class-level captures, plus a ghost counter of install operations. -/
structure StreamState where
  stdoutWrite : Option WriteFn
  stderrWrite : Option WriteFn
  oldOutWrite : Option WriteFn
  oldErrWrite : Option WriteFn
  installCount : Nat
deriving DecidableEq, Repr

/-- Process start: pristine sinks, `_old_out_write = _old_err_write = None`. -/
def initStreams : StreamState :=
  { stdoutWrite := some .original, stderrWrite := some .original
    oldOutWrite := none, oldErrWrite := none, installCount := 0 }

/-- `LogsMonitor._install_stream_patches`: capture the current write
functions into the class attributes, then replace both sinks by freshly
created wrappers.  No guard: it re-captures whatever is currently
installed. -/
def installStreamPatches (g : StreamState) : StreamState :=
  { stdoutWrite := some (.wrapped g.installCount)
    stderrWrite := some (.wrapped g.installCount)
    oldOutWrite := g.stdoutWrite
    oldErrWrite := g.stderrWrite
    installCount := g.installCount + 1 }

/-- `LogsMonitor._uninstall_stream_patches`: assign the captured class
attributes back to the sinks.  No guard: if nothing was ever captured this
assigns `None`. -/
def uninstallStreamPatches (g : StreamState) : StreamState :=
  { g with stdoutWrite := g.oldOutWrite, stderrWrite := g.oldErrWrite }

/-- Per-instance `LogsMonitor` state: `_started`, `_shutdown`, whether
`_th_collector.start()` already ran, the pending buffer bytes, the content
of `terminal_log.txt`, and ghost counters of file opens and
`log_artifact` calls. -/
structure MonitorState where
  started : Bool
  shutdown : Bool
  threadStarted : Bool
  buffer : List Nat
  fileContent : List Nat
  fileOpens : Nat
  artifactCalls : Nat
deriving DecidableEq, Repr

/-- A freshly constructed monitor. -/
def initMonitor : MonitorState :=
  { started := false, shutdown := false, threadStarted := false
    buffer := [], fileContent := [], fileOpens := 0, artifactCalls := 0 }

/-- The whole-process state: the registry (list of registered monitor
identities, insertion ordered), the shared stream state, and every
monitor's instance state. -/
structure Sys where
  registry : List Nat
  streams : StreamState
  monitors : Nat → MonitorState

/-- Process start: empty registry, pristine streams, fresh monitors. -/
def initSys : Sys :=
  { registry := [], streams := initStreams, monitors := fun _ => initMonitor }

/-- Replace monitor `m`'s instance state. -/
def setMonitor (m : Nat) (mo : MonitorState) (s : Sys) : Sys :=
  { s with monitors := fun i => if i = m then mo else s.monitors i }

/-- `lines = [e + b"\n" for e in data.split(b"\n") if e]`. -/
def splitLines (data : List Nat) : List (List Nat) :=
  ((data.splitOn 10).filter (fun e => e ≠ [])).map (fun e => e ++ [10])

/-- The `for line in lines` write loop of `_store_buffered_logs`: filter each
line and append it to the file; a `ValueError` from `_handle_csi` escapes
after the earlier lines were already written (the `with` block closes the
file on the way out). -/
def writeLines (shutdown : Bool) : List (List Nat) → List Nat → List Nat × Option Err
  | [], file => (file, none)
  | l :: ls, file =>
      match filterLine shutdown l with
      | .ok r => writeLines shutdown ls (file ++ r)
      | .error _ => (file, some .valueError)

/-- `LogsMonitor._store_buffered_logs`: if the buffer position is zero,
return immediately; otherwise drain the buffer, open the file, write the
filtered lines, and (on success) call `log_artifact`.  The buffer is rewound
before the line loop, so it is empty afterwards even when a line raises. -/
def storeBufferedLogs (mo : MonitorState) : MonitorState × Option Err :=
  if mo.buffer = [] then (mo, none)
  else
    match writeLines mo.shutdown (splitLines mo.buffer) mo.fileContent with
    | (file', none) =>
        ({ mo with
            buffer := []
            fileContent := file'
            fileOpens := mo.fileOpens + 1
            artifactCalls := mo.artifactCalls + 1 }, none)
    | (file', some e) =>
        ({ mo with
            buffer := []
            fileContent := file'
            fileOpens := mo.fileOpens + 1 }, some e)

/-- `LogsMonitor.start`: no-op when `_started`; otherwise set `_started`,
install the stream patches when the registry is empty, register the buffer,
and start the collector thread (a `Thread` whose `start` already ran raises
`RuntimeError`; unreachable from `initSys`). -/
def stepStart (m : Nat) (s : Sys) : Sys × Option Err :=
  if (s.monitors m).started then (s, none)
  else
    let s1 := setMonitor m { s.monitors m with started := true } s
    let s2 := if s1.registry = [] then
        { s1 with streams := installStreamPatches s1.streams }
      else s1
    let s3 := { s2 with registry :=
        if m ∈ s2.registry then s2.registry else s2.registry ++ [m] }
    if (s3.monitors m).threadStarted then (s3, some .runtimeError)
    else (setMonitor m { s3.monitors m with threadStarted := true } s3, none)

/-- `LogsMonitor.finish`: no-op when not `_started`; otherwise set
`_shutdown`, store the buffered logs (which may raise `ValueError`), then
`del self._buffer_registry[id(self)]` (a `KeyError` when the buffer was
already unregistered — `_started` is never reset, so a second `finish`
reaches this), uninstall the patches when the registry became empty, and
append `b"\n\n"` to the file. -/
def stepFinish (m : Nat) (s : Sys) : Sys × Option Err :=
  if (s.monitors m).started = false then (s, none)
  else
    match storeBufferedLogs { s.monitors m with shutdown := true } with
    | (mo2, some e) => (setMonitor m mo2 s, some e)
    | (mo2, none) =>
        let s1 := setMonitor m mo2 s
        if m ∈ s1.registry then
          let s2 := { s1 with registry := s1.registry.erase m }
          let s3 := if s2.registry = [] then
              { s2 with streams := uninstallStreamPatches s2.streams }
            else s2
          (setMonitor m { mo2 with
              fileContent := mo2.fileContent ++ [10, 10]
              fileOpens := mo2.fileOpens + 1 } s3, none)
        else (s1, some .keyError)

/-- A lifecycle call: `start()` or `finish(status)` on monitor `m` (the
status string only feeds a log record and is omitted). -/
inductive Op where
  | start (m : Nat) : Op
  | finish (m : Nat) : Op

/-- Execute one lifecycle call. -/
def stepOp : Op → Sys → Sys × Option Err
  | .start m, s => stepStart m s
  | .finish m, s => stepFinish m s

/-- Execute a sequence of lifecycle calls; an uncaught exception stops the
sequence, leaving the state as mutated so far. -/
def runTrace : List Op → Sys → Sys × Option Err
  | [], s => (s, none)
  | op :: tr, s =>
      match stepOp op s with
      | (s', none) => runTrace tr s'
      | (s', some e) => (s', some e)

/-- The number of steps of the trace at which the registry passes from empty
to non-empty (the instants at which `start` runs `_install_stream_patches`). -/
def installsIn : List Op → Sys → Nat
  | [], _ => 0
  | op :: tr, s =>
      match stepOp op s with
      | (s', none) =>
          (if s.registry.isEmpty && !s'.registry.isEmpty then 1 else 0) +
            installsIn tr s'
      | (s', some _) =>
          if s.registry.isEmpty && !s'.registry.isEmpty then 1 else 0

/-- The registry/stream invariant: the sinks hold the original write
functions exactly when the registry is empty, and hold wrapper functions —
with the pristine originals captured in the class attributes — exactly when
it is non-empty; the class attributes only ever hold `None` or the pristine
originals. -/
def Inv (s : Sys) : Prop :=
  (s.registry = [] →
    s.streams.stdoutWrite = some .original ∧ s.streams.stderrWrite = some .original) ∧
  (s.registry ≠ [] →
    (∃ k, s.streams.stdoutWrite = some (.wrapped k) ∧
          s.streams.stderrWrite = some (.wrapped k)) ∧
    s.streams.oldOutWrite = some .original ∧ s.streams.oldErrWrite = some .original) ∧
  (s.streams.oldOutWrite = none ∨ s.streams.oldOutWrite = some .original) ∧
  (s.streams.oldErrWrite = none ∨ s.streams.oldErrWrite = some .original)

/-! ## Lemmas about the control-sequence filter -/

theorem keepCond_nil (sh : Bool) : keepCond sh [] = !sh := by
  cases sh <;> rfl

theorem handleCSILoop_nil_line (sh : Bool) (ms : List (List Nat × Nat))
    (h : ∀ pc ∈ ms, argParses pc.1 = true) :
    handleCSILoop sh ms [] = .ok [] := by
  induction ms with
  | nil => rfl
  | cons pc ms ih =>
      obtain ⟨p, c⟩ := pc
      have hp : argParses p = true := h (p, c) (List.mem_cons_self _ _)
      simp only [handleCSILoop, hp, if_true, ite_self]
      exact ih fun pc hpc => h pc (List.mem_cons_of_mem _ hpc)

theorem handleCSILoop_ok (sh : Bool) (ms : List (List Nat × Nat)) (l : List Nat)
    (h : ∀ pc ∈ ms, argParses pc.1 = true) :
    handleCSILoop sh ms l =
      .ok (if ms.any (fun pc => pc.2 == 65) && keepCond sh l then [] else l) := by
  induction ms with
  | nil => simp [handleCSILoop]
  | cons pc ms ih =>
      obtain ⟨p, c⟩ := pc
      have hp : argParses p = true := h (p, c) (List.mem_cons_self _ _)
      have htail : ∀ pc ∈ ms, argParses pc.1 = true :=
        fun pc hpc => h pc (List.mem_cons_of_mem _ hpc)
      simp only [handleCSILoop, hp, if_true]
      cases h65 : (c == 65) with
      | false =>
          rw [if_neg (by simp [h65])]
          rw [ih htail]
          rw [List.any_cons]
          simp only [h65, Bool.false_or]
      | true =>
          cases hk : keepCond sh l with
          | false =>
              rw [if_neg (by simp [hk])]
              rw [ih htail]
              simp [hk]
          | true =>
              rw [if_pos (by simp [h65, hk])]
              rw [handleCSILoop_nil_line sh ms htail]
              simp [List.any_cons, h65, hk]

theorem handleCSILoop_error (sh : Bool) (ms : List (List Nat × Nat))
    (h : ∃ pc ∈ ms, argParses pc.1 = false) :
    ∀ l, handleCSILoop sh ms l = .error () := by
  induction ms with
  | nil => simp at h
  | cons pc ms ih =>
      intro l
      obtain ⟨p, c⟩ := pc
      cases hp : argParses p with
      | false => simp [handleCSILoop, hp]
      | true =>
          have hnext : ∃ pc ∈ ms, argParses pc.1 = false := by
            obtain ⟨q, hq, hqf⟩ := h
            rcases List.mem_cons.mp hq with h1 | h1
            · subst h1
              simp [hp] at hqf
            · exact ⟨q, h1, hqf⟩
          simp only [handleCSILoop, hp, if_true]
          exact ih hnext _

theorem removeCSIAux_nil (fuel : Nat) : removeCSIAux fuel [] = [] := by
  cases fuel <;> rfl

theorem removeCSIAux_of_no_matches :
    ∀ (fuel : Nat) (l : List Nat), csiMatches fuel l = [] → removeCSIAux fuel l = l := by
  intro fuel
  induction fuel with
  | zero => intro l _; cases l <;> rfl
  | succ fuel ih =>
      intro l hm
      cases l with
      | nil => rfl
      | cons b bs =>
          cases hat : csiAt (b :: bs) with
          | some pcr =>
              obtain ⟨p, c, r⟩ := pcr
              simp [csiMatches, hat] at hm
          | none =>
              simp only [removeCSIAux, hat]
              simp only [csiMatches, hat] at hm
              rw [ih bs hm]

theorem dropSTX_suffix (r : List Nat) : dropSTX r <:+ r := by
  cases r with
  | nil => exact List.suffix_refl []
  | cons x xs =>
      by_cases hx : x = 2
      · simp [dropSTX, hx]
      · simp [dropSTX, hx]

theorem csiCore_suffix {l p r : List Nat} {c : Nat}
    (h : csiCore l = some (p, c, r)) : r <:+ l := by
  cases l with
  | nil => simp [csiCore] at h
  | cons e l1 =>
      cases l1 with
      | nil => simp [csiCore] at h
      | cons br rest =>
          simp only [csiCore] at h
          by_cases he : e = 27 ∧ br = 91
          · rw [if_pos he] at h
            cases hdw : rest.dropWhile isParamByte with
            | nil => rw [hdw] at h; simp [csiTail] at h
            | cons c0 rest' =>
                rw [hdw] at h
                simp only [csiTail] at h
                by_cases hlet : isLetterByte c0 = true
                · rw [if_pos hlet] at h
                  simp only [Option.some.injEq, Prod.mk.injEq] at h
                  obtain ⟨-, -, hr⟩ := h
                  have h1 : c0 :: rest' <:+ rest :=
                    hdw ▸ List.dropWhile_suffix isParamByte
                  have h2 : rest' <:+ rest := (List.suffix_cons c0 rest').trans h1
                  have h3 : r <:+ rest' := hr ▸ dropSTX_suffix rest'
                  exact ((h3.trans h2).trans (List.suffix_cons br rest)).trans
                    (List.suffix_cons e (br :: rest))
                · rw [if_neg hlet] at h; simp at h
          · rw [if_neg he] at h; simp at h

theorem csiAt_suffix {l p r : List Nat} {c : Nat}
    (h : csiAt l = some (p, c, r)) : r <:+ l := by
  cases l with
  | nil => simp [csiAt] at h
  | cons x rest =>
      simp only [csiAt] at h
      by_cases hx : x = 1
      · rw [if_pos hx] at h
        exact (csiCore_suffix h).trans (List.suffix_cons x rest)
      · rw [if_neg hx] at h
        exact csiCore_suffix h

theorem removeCSIAux_sublist :
    ∀ (fuel : Nat) (l : List Nat), List.Sublist (removeCSIAux fuel l) l := by
  intro fuel
  induction fuel with
  | zero => intro l; cases l <;> exact List.Sublist.refl _
  | succ fuel ih =>
      intro l
      cases l with
      | nil => exact List.Sublist.refl []
      | cons b bs =>
          cases hat : csiAt (b :: bs) with
          | some pcr =>
              obtain ⟨p, c, r⟩ := pcr
              simp only [removeCSIAux, hat]
              exact (ih r).trans (csiAt_suffix hat).sublist
          | none =>
              simp only [removeCSIAux, hat]
              exact List.Sublist.cons₂ b (ih bs)

theorem afterLastCR_not_mem : ∀ l : List Nat, 13 ∉ afterLastCR l := by
  intro l
  induction l with
  | nil => simp [afterLastCR]
  | cons b bs ih =>
      by_cases hb : b = 13
      · simpa [afterLastCR, hb] using ih
      · by_cases hm : 13 ∈ bs
        · simpa [afterLastCR, hb, hm] using ih
        · simp [afterLastCR, hb, hm]
          exact fun h => hb h.symm

theorem afterLastCR_of_not_mem {l : List Nat} (h : 13 ∉ l) : afterLastCR l = l := by
  cases l with
  | nil => rfl
  | cons b bs =>
      have hb : ¬b = 13 := fun hb => h (by simp [hb])
      have hm : 13 ∉ bs := fun hm => h (List.mem_cons_of_mem b hm)
      simp [afterLastCR, hb, hm]

theorem afterLastCR_append :
    ∀ (xs ys : List Nat), 13 ∉ ys → afterLastCR (xs ++ 13 :: ys) = ys := by
  intro xs
  induction xs with
  | nil => intro ys hy; simpa [afterLastCR] using afterLastCR_of_not_mem hy
  | cons x xs ih =>
      intro ys hy
      by_cases hx : x = 13
      · simpa [afterLastCR, hx] using ih ys hy
      · have hm : 13 ∈ xs ++ 13 :: ys := List.mem_append_right xs (by simp)
        simpa [afterLastCR, hx, hm] using ih ys hy

theorem handleCSISuppress_eq (sh : Bool) (l : List Nat)
    (h : allArgsParse l = true) :
    handleCSISuppress sh l = .ok (if suppressCond sh l then [] else l) := by
  have hall : ∀ pc ∈ csiMatches l.length l, argParses pc.1 = true := by
    intro pc hpc
    exact List.all_eq_true.mp h pc hpc
  unfold handleCSISuppress
  rw [handleCSILoop_ok sh _ l hall]
  rfl

theorem handleCSI_eq (sh : Bool) (l : List Nat) (h : allArgsParse l = true) :
    handleCSI sh l = .ok (removeCSI (if suppressCond sh l then [] else l)) := by
  unfold handleCSI
  rw [handleCSISuppress_eq sh l h]
  by_cases hs : suppressCond sh l = true
  · simp [hs, removeCSI, removeCSIAux_nil, Except.map]
  · simp [hs, removeCSI, Except.map]

theorem filterLine_of_handleCSI {sh : Bool} {l r : List Nat}
    (h : handleCSI sh l = .ok r) : filterLine sh l = .ok (afterLastCR r) := by
  simp [filterLine, h]

theorem filterLine_ok_no_cr {sh : Bool} {l r : List Nat}
    (h : filterLine sh l = .ok r) : 13 ∉ r := by
  unfold filterLine at h
  cases hc : handleCSI sh l with
  | ok r0 =>
      rw [hc] at h
      simp at h
      rw [← h]
      exact afterLastCR_not_mem r0
  | error e => rw [hc] at h; simp at h

theorem filterLine_fixed (sh : Bool) (r : List Nat)
    (hm : csiMatches r.length r = []) (hcr : 13 ∉ r) :
    filterLine sh r = .ok r := by
  have h1 : handleCSISuppress sh r = .ok r := by
    unfold handleCSISuppress
    rw [hm]
    rfl
  have h2 : handleCSI sh r = .ok r := by
    unfold handleCSI
    rw [h1]
    simp [Except.map, removeCSIAux_of_no_matches r.length r hm]
  rw [filterLine_of_handleCSI h2, afterLastCR_of_not_mem hcr]

/-! ## Lemmas about the lifecycle state machine -/

theorem inv_initSys : Inv initSys :=
  ⟨fun _ => ⟨rfl, rfl⟩, fun h => absurd rfl h, Or.inl rfl, Or.inl rfl⟩

theorem stepStart_fields (m : Nat) (s : Sys) :
    ((stepStart m s).1.registry =
       if (s.monitors m).started then s.registry
       else if m ∈ s.registry then s.registry else s.registry ++ [m]) ∧
    ((stepStart m s).1.streams =
       if (s.monitors m).started then s.streams
       else if s.registry = [] then installStreamPatches s.streams else s.streams) := by
  by_cases hs : (s.monitors m).started = true
  · simp [stepStart, hs]
  · by_cases ht : (s.monitors m).threadStarted = true
    all_goals by_cases hr : s.registry = []
    all_goals by_cases hm : m ∈ s.registry
    all_goals simp [stepStart, hs, ht, hr, hm, setMonitor]

theorem stepStart_started (m : Nat) (s : Sys) :
    ((stepStart m s).1.monitors m).started = true := by
  by_cases hs : (s.monitors m).started = true
  · simp [stepStart, hs]
  · by_cases ht : (s.monitors m).threadStarted = true
    all_goals by_cases hr : s.registry = []
    all_goals by_cases hm : m ∈ s.registry
    all_goals simp [stepStart, hs, ht, hr, hm, setMonitor]

theorem stepStart_idem (m : Nat) (s : Sys) :
    stepStart m (stepStart m s).1 = ((stepStart m s).1, none) := by
  have h := stepStart_started m s
  generalize hX : (stepStart m s).1 = X at h ⊢
  unfold stepStart
  rw [if_pos h]

theorem stepFinish_not_started (m : Nat) (s : Sys)
    (h : (s.monitors m).started = false) : stepFinish m s = (s, none) := by
  simp [stepFinish, h]

theorem stepFinish_finished_again (m : Nat) (s : Sys)
    (hst : (s.monitors m).started = true) (hb : (s.monitors m).buffer = [])
    (hm : m ∉ s.registry) :
    stepFinish m s =
      (setMonitor m { s.monitors m with shutdown := true } s, some .keyError) := by
  have hsb : storeBufferedLogs { s.monitors m with shutdown := true } =
      ({ s.monitors m with shutdown := true }, none) := by
    simp [storeBufferedLogs, hb]
  simp only [stepFinish]
  rw [if_neg (by simp [hst])]
  simp [hsb, hm, setMonitor]

theorem stepFinish_fields_ok (m : Nat) (s : Sys) (mo2 : MonitorState)
    (hst : (s.monitors m).started = true)
    (hsb : storeBufferedLogs { s.monitors m with shutdown := true } = (mo2, none))
    (hm : m ∈ s.registry) :
    (stepFinish m s).1.registry = s.registry.erase m ∧
    (stepFinish m s).1.streams =
      (if s.registry.erase m = [] then uninstallStreamPatches s.streams
       else s.streams) := by
  simp only [stepFinish]
  rw [if_neg (by simp [hst])]
  by_cases he : s.registry.erase m = [] <;>
    simp [hsb, hm, he, setMonitor]

theorem stepFinish_fields_err (m : Nat) (s : Sys) (mo2 : MonitorState) (e : Err)
    (hst : (s.monitors m).started = true)
    (hsb : storeBufferedLogs { s.monitors m with shutdown := true } = (mo2, some e)) :
    stepFinish m s = (setMonitor m mo2 s, some e) := by
  simp only [stepFinish]
  rw [if_neg (by simp [hst])]
  simp [hsb]

theorem inv_stepStart (m : Nat) (s : Sys) (h : Inv s) : Inv (stepStart m s).1 := by
  obtain ⟨hreg, hstr⟩ := stepStart_fields m s
  by_cases hs : (s.monitors m).started = true
  · rw [hs] at hreg hstr
    simp only [if_true] at hreg hstr
    refine ⟨fun h0 => ?_, fun h0 => ?_, ?_, ?_⟩
    · rw [hstr]
      exact h.1 (hreg.symm.trans h0)
    · rw [hstr]
      exact h.2.1 fun hc => h0 (hreg.trans hc)
    · rw [hstr]
      exact h.2.2.1
    · rw [hstr]
      exact h.2.2.2
  · have hs' : (s.monitors m).started = false := by
      cases hv : (s.monitors m).started
      · rfl
      · exact absurd hv hs
    rw [hs'] at hreg hstr
    simp only [Bool.false_eq_true, if_false] at hreg hstr
    by_cases hr : s.registry = []
    · rw [if_pos hr] at hstr
      have hm : ¬ m ∈ s.registry := by rw [hr]; simp
      rw [if_neg hm, hr] at hreg
      refine ⟨fun h0 => absurd (hreg.symm.trans h0) (by simp), fun _ => ?_, ?_, ?_⟩
      · obtain ⟨ho, he⟩ := h.1 hr
        exact ⟨⟨s.streams.installCount, by rw [hstr]; simp [installStreamPatches],
          by rw [hstr]; simp [installStreamPatches]⟩,
          by rw [hstr]; simp [installStreamPatches, ho],
          by rw [hstr]; simp [installStreamPatches, he]⟩
      · rw [hstr]
        obtain ⟨ho, _⟩ := h.1 hr
        exact Or.inr (by simp [installStreamPatches, ho])
      · rw [hstr]
        obtain ⟨_, he⟩ := h.1 hr
        exact Or.inr (by simp [installStreamPatches, he])
    · rw [if_neg hr] at hstr
      have hne : (stepStart m s).1.registry ≠ [] := by
        rw [hreg]
        by_cases hm : m ∈ s.registry
        · simpa [hm] using hr
        · simp [hm]
      exact ⟨fun h0 => absurd h0 hne, fun _ => hstr ▸ h.2.1 hr,
        hstr ▸ h.2.2.1, hstr ▸ h.2.2.2⟩

theorem inv_stepFinish (m : Nat) (s : Sys) (h : Inv s) : Inv (stepFinish m s).1 := by
  by_cases hs : (s.monitors m).started = false
  · rw [stepFinish_not_started m s hs]
    exact h
  · have hst : (s.monitors m).started = true := by
      cases hv : (s.monitors m).started
      · exact absurd hv hs
      · rfl
    cases hsb : storeBufferedLogs { s.monitors m with shutdown := true } with
    | mk mo2 e =>
        cases e with
        | some err =>
            rw [stepFinish_fields_err m s mo2 err hst hsb]
            exact h
        | none =>
            by_cases hm : m ∈ s.registry
            · obtain ⟨hreg, hstr⟩ := stepFinish_fields_ok m s mo2 hst hsb hm
              have hrne : s.registry ≠ [] := List.ne_nil_of_mem hm
              obtain ⟨⟨k, hko, hke⟩, hoo, hoe⟩ := h.2.1 hrne
              by_cases he : s.registry.erase m = []
              · rw [if_pos he] at hstr
                refine ⟨fun _ => ?_, fun h0 => absurd (hreg.trans he) h0, ?_, ?_⟩
                · rw [hstr]
                  exact ⟨hoo, hoe⟩
                · rw [hstr]
                  exact Or.inr hoo
                · rw [hstr]
                  exact Or.inr hoe
              · rw [if_neg he] at hstr
                exact ⟨fun h0 => absurd (hreg.symm.trans h0) he,
                  fun _ => hstr ▸ h.2.1 hrne, hstr ▸ h.2.2.1, hstr ▸ h.2.2.2⟩
            · have hkey : stepFinish m s = (setMonitor m mo2 s, some .keyError) := by
                simp only [stepFinish]
                rw [if_neg (by simp [hst])]
                simp [hsb, hm, setMonitor]
              rw [hkey]
              exact h

theorem inv_stepOp (op : Op) (s : Sys) (h : Inv s) : Inv (stepOp op s).1 := by
  cases op with
  | start m => exact inv_stepStart m s h
  | finish m => exact inv_stepFinish m s h

theorem inv_runTrace : ∀ (tr : List Op) (s : Sys), Inv s → Inv (runTrace tr s).1 := by
  intro tr
  induction tr with
  | nil => intro s h; exact h
  | cons op tr ih =>
      intro s h
      simp only [runTrace]
      cases hstep : stepOp op s with
      | mk s' e =>
          have h' : Inv s' := by
            have := inv_stepOp op s h
            rw [hstep] at this
            exact this
          cases e with
          | none => exact ih s' h'
          | some err => exact h'

theorem isEmpty_false_of_ne_nil {l : List Nat} (h : l ≠ []) : l.isEmpty = false := by
  cases hc : l with
  | nil => exact absurd hc h
  | cons a t => rfl

theorem installCount_stepStart (m : Nat) (s : Sys) :
    (stepStart m s).1.streams.installCount =
      s.streams.installCount +
        (if s.registry.isEmpty && !(stepStart m s).1.registry.isEmpty then 1 else 0) := by
  obtain ⟨hreg, hstr⟩ := stepStart_fields m s
  by_cases hs : (s.monitors m).started = true
  · rw [hs] at hreg hstr
    simp only [if_true] at hreg hstr
    rw [hstr, hreg]
    cases s.registry <;> simp
  · have hs' : (s.monitors m).started = false := by
      cases hv : (s.monitors m).started
      · rfl
      · exact absurd hv hs
    rw [hs'] at hreg hstr
    simp only [Bool.false_eq_true, if_false] at hreg hstr
    by_cases hr : s.registry = []
    · rw [if_pos hr] at hstr
      have hm : ¬ m ∈ s.registry := by rw [hr]; simp
      rw [if_neg hm, hr] at hreg
      rw [hstr, hreg, hr]
      simp [installStreamPatches]
    · rw [if_neg hr] at hstr
      rw [hstr, isEmpty_false_of_ne_nil hr]
      simp

theorem installCount_stepFinish (m : Nat) (s : Sys) :
    (stepFinish m s).1.streams.installCount = s.streams.installCount ∧
    ((stepFinish m s).1.registry = s.registry ∨
     (stepFinish m s).1.registry = s.registry.erase m) := by
  by_cases hs : (s.monitors m).started = false
  · rw [stepFinish_not_started m s hs]
    exact ⟨rfl, Or.inl rfl⟩
  · have hst : (s.monitors m).started = true := by
      cases hv : (s.monitors m).started
      · exact absurd hv hs
      · rfl
    cases hsb : storeBufferedLogs { s.monitors m with shutdown := true } with
    | mk mo2 e =>
        cases e with
        | some err =>
            rw [stepFinish_fields_err m s mo2 err hst hsb]
            exact ⟨rfl, Or.inl rfl⟩
        | none =>
            by_cases hm : m ∈ s.registry
            · obtain ⟨hreg, hstr⟩ := stepFinish_fields_ok m s mo2 hst hsb hm
              refine ⟨?_, Or.inr hreg⟩
              rw [hstr]
              by_cases he : s.registry.erase m = [] <;>
                simp [he, uninstallStreamPatches]
            · have hkey : stepFinish m s = (setMonitor m mo2 s, some .keyError) := by
                simp only [stepFinish]
                rw [if_neg (by simp [hst])]
                simp [hsb, hm, setMonitor]
              rw [hkey]
              exact ⟨rfl, Or.inl rfl⟩

theorem installCount_stepOp (op : Op) (s s' : Sys) (e : Option Err)
    (h : stepOp op s = (s', e)) :
    s'.streams.installCount =
      s.streams.installCount +
        (if s.registry.isEmpty && !s'.registry.isEmpty then 1 else 0) := by
  cases op with
  | start m =>
      have := installCount_stepStart m s
      rw [show stepStart m s = (s', e) from h] at this
      exact this
  | finish m =>
      obtain ⟨hc, hr⟩ := installCount_stepFinish m s
      rw [show stepFinish m s = (s', e) from h] at hc hr
      have hc' : s'.streams.installCount = s.streams.installCount := hc
      rw [hc']
      rcases hr with hr | hr <;> rw [show s'.registry = _ from hr]
      · cases s.registry <;> simp
      · by_cases hsr : s.registry = []
        · rw [hsr]
          simp
        · rw [isEmpty_false_of_ne_nil hsr]
          simp

theorem installCount_runTrace :
    ∀ (tr : List Op) (s : Sys),
      (runTrace tr s).1.streams.installCount =
        s.streams.installCount + installsIn tr s := by
  intro tr
  induction tr with
  | nil => intro s; rfl
  | cons op tr ih =>
      intro s
      cases hso : stepOp op s with
      | mk s' e =>
          have hstep := installCount_stepOp op s s' e hso
          cases e with
          | none =>
              have hrun : runTrace (op :: tr) s = runTrace tr s' := by
                simp [runTrace, hso]
              have hins : installsIn (op :: tr) s =
                  (if s.registry.isEmpty && !s'.registry.isEmpty then 1 else 0) +
                    installsIn tr s' := by
                simp [installsIn, hso]
              rw [hrun, hins, ih s', hstep, Nat.add_assoc]
          | some err =>
              have hrun : runTrace (op :: tr) s = (s', some err) := by
                simp [runTrace, hso]
              have hins : installsIn (op :: tr) s =
                  (if s.registry.isEmpty && !s'.registry.isEmpty then 1 else 0) := by
                simp [installsIn, hso]
              rw [hrun, hins]
              exact hstep

theorem stepStart_nonempty (m : Nat) (s : Sys) (hr : s.registry ≠ []) :
    (stepStart m s).1.registry ≠ [] ∧ (stepStart m s).1.streams = s.streams := by
  obtain ⟨hreg, hstr⟩ := stepStart_fields m s
  by_cases hs : (s.monitors m).started = true
  · rw [hs] at hreg hstr
    simp only [if_true] at hreg hstr
    exact ⟨fun h0 => hr (hreg.symm.trans h0), hstr⟩
  · have hs' : (s.monitors m).started = false := by
      cases hv : (s.monitors m).started
      · rfl
      · exact absurd hv hs
    rw [hs'] at hreg hstr
    simp only [Bool.false_eq_true, if_false] at hreg hstr
    rw [if_neg hr] at hstr
    refine ⟨?_, hstr⟩
    rw [hreg]
    by_cases hm : m ∈ s.registry
    · simpa [hm] using hr
    · simp [hm]

theorem runTrace_starts_count :
    ∀ (ids : List Nat) (s : Sys), s.registry ≠ [] →
      (runTrace (ids.map Op.start) s).1.streams.installCount =
        s.streams.installCount := by
  intro ids
  induction ids with
  | nil => intro s _; rfl
  | cons i ids ih =>
      intro s hr
      cases hso : stepStart i s with
      | mk s' e =>
          have hne : s'.registry ≠ [] := by
            have := (stepStart_nonempty i s hr).1
            rw [hso] at this
            exact this
          have hstr : s'.streams = s.streams := by
            have := (stepStart_nonempty i s hr).2
            rw [hso] at this
            exact this
          cases e with
          | none =>
              have hrun : runTrace ((i :: ids).map Op.start) s =
                  runTrace (ids.map Op.start) s' := by
                simp [runTrace, stepOp, hso]
              rw [hrun, ih s' hne, hstr]
          | some err =>
              have hrun : runTrace ((i :: ids).map Op.start) s = (s', some err) := by
                simp [runTrace, stepOp, hso]
              rw [hrun]
              show s'.streams.installCount = s.streams.installCount
              rw [hstr]

theorem stepStart_init_fields (m : Nat) :
    (stepStart m initSys).2 = none ∧
    (stepStart m initSys).1.registry = [m] ∧
    (stepStart m initSys).1.streams = installStreamPatches initStreams := by
  refine ⟨?_, ?_, ?_⟩ <;>
    simp [stepStart, initSys, initMonitor, setMonitor]

theorem starts_installCount_one (ids : List Nat) (h : ids ≠ []) :
    (runTrace (ids.map Op.start) initSys).1.streams.installCount = 1 := by
  cases ids with
  | nil => exact absurd rfl h
  | cons i ids =>
      obtain ⟨he, hreg, hstr⟩ := stepStart_init_fields i
      cases hso : stepStart i initSys with
      | mk s' e =>
          rw [hso] at he hreg hstr
          have he' : e = none := he
          subst he'
          have hreg' : s'.registry = [i] := hreg
          have hstr' : s'.streams = installStreamPatches initStreams := hstr
          have hrun : runTrace ((i :: ids).map Op.start) initSys =
              runTrace (ids.map Op.start) s' := by
            simp [runTrace, stepOp, hso]
          rw [hrun, runTrace_starts_count ids s' (by rw [hreg']; simp), hstr']
          rfl

/-! ## Lemmas about the collector loop -/

theorem collectorLoop_exit :
    ∀ (fuel interval tSet t counter : Nat), 1 ≤ interval →
      tSet ≤ t + fuel * interval →
      (tSet ≤ t → (collectorLoop fuel interval tSet t counter).1 = t) ∧
      (t < tSet → tSet ≤ (collectorLoop fuel interval tSet t counter).1 ∧
        (collectorLoop fuel interval tSet t counter).1 < tSet + interval) := by
  intro fuel
  induction fuel with
  | zero =>
      intro interval tSet t counter _ hb
      refine ⟨fun _ => rfl, fun hlt => ?_⟩
      simp only [Nat.zero_mul, Nat.add_zero] at hb
      omega
  | succ fuel ih =>
      intro interval tSet t counter hI hb
      rw [Nat.succ_mul] at hb
      constructor
      · intro hle
        simp [collectorLoop, hle]
      · intro hlt
        have hcond : ¬ tSet ≤ t := by omega
        have hstep : (collectorLoop (fuel + 1) interval tSet t counter).1 =
            (collectorLoop fuel interval tSet (t + interval)
              (if log_capture_interval < counter + interval then 0
               else counter + interval)).1 := by
          simp only [collectorLoop]
          rw [if_neg hcond]
          cases hrr : collectorLoop fuel interval tSet (t + interval)
              (if log_capture_interval < counter + interval then 0
               else counter + interval) with
          | mk e fs =>
              by_cases hfl : log_capture_interval < counter + interval <;> simp [hfl]
        rw [hstep]
        have hrec := ih interval tSet (t + interval)
          (if log_capture_interval < counter + interval then 0
           else counter + interval) hI (by omega)
        by_cases hle2 : tSet ≤ t + interval
        · rw [hrec.1 hle2]
          omega
        · exact hrec.2 (by omega)

theorem collectorExitTime_bounds (interval tSet : Nat) (hI : 1 ≤ interval) :
    tSet ≤ collectorExitTime interval tSet ∧
    collectorExitTime interval tSet < tSet + interval := by
  have hb : tSet ≤ 0 + tSet * interval := by
    have := Nat.mul_le_mul_left tSet hI
    omega
  have h := collectorLoop_exit tSet interval tSet 0 0 hI hb
  rcases Nat.eq_zero_or_pos tSet with h0 | h0
  · subst h0
    exact ⟨Nat.zero_le _, by
      have : collectorExitTime interval 0 = 0 := h.1 (Nat.le_refl 0)
      rw [this]
      omega⟩
  · exact h.2 h0

/-! ## Lemmas about hyperparameter batching -/

theorem batchesAux_flatten :
    ∀ (fuel : Nat) (l : List MParam), l.length ≤ fuel →
      (batchesAux fuel l).flatten = l := by
  intro fuel
  induction fuel with
  | zero =>
      intro l h
      rw [List.eq_nil_of_length_eq_zero (Nat.le_zero.mp h)]
      rfl
  | succ fuel ih =>
      intro l h
      cases l with
      | nil => rfl
      | cons p ps =>
          simp only [batchesAux, List.flatten_cons]
          rw [ih ((p :: ps).drop 100) (by simp only [List.length_drop] at h ⊢; omega)]
          exact List.take_append_drop 100 (p :: ps)

theorem batchesAux_length :
    ∀ (fuel : Nat) (l : List MParam), l.length ≤ fuel →
      (batchesAux fuel l).length = (l.length + 99) / 100 := by
  intro fuel
  induction fuel with
  | zero =>
      intro l h
      rw [List.eq_nil_of_length_eq_zero (Nat.le_zero.mp h)]
      rfl
  | succ fuel ih =>
      intro l h
      cases l with
      | nil => rfl
      | cons p ps =>
          simp only [batchesAux, List.length_cons]
          rw [ih ((p :: ps).drop 100) (by simp only [List.length_drop] at h ⊢; omega)]
          simp only [List.length_drop, List.length_cons]
          omega

theorem batchesAux_mem :
    ∀ (fuel : Nat) (l : List MParam) (b : List MParam), b ∈ batchesAux fuel l →
      b ≠ [] ∧ b.length ≤ 100 := by
  intro fuel
  induction fuel with
  | zero => intro l b hb; simp [batchesAux] at hb
  | succ fuel ih =>
      intro l b hb
      cases l with
      | nil => simp [batchesAux] at hb
      | cons p ps =>
          simp only [batchesAux] at hb
          rcases List.mem_cons.mp hb with hb | hb
          · subst hb
            refine ⟨by simp, ?_⟩
            have := List.length_take 100 (p :: ps)
            omega
          · exact ih _ b hb

theorem strTake_eq_take (s : String) (n : Nat) : strTake s n = s.take n :=
  (String.take_eq s n).symm

theorem healthErrorBase_ne_hint (uri : String) :
    healthErrorBase uri ≠ healthErrorBase uri ++ healthAuthHint := by
  intro hcon
  have hlen := congrArg String.length hcon
  rw [String.length_append] at hlen
  have hh : 0 < healthAuthHint.length := by decide
  omega

/-! ## Claim theorems -/

/-- C1: for every sequence of `start()`/`finish()` calls from process start,
the stream interception is installed exactly when the buffer registry is
non-empty — with the pristine original write functions captured — and the
sinks hold the exact originals whenever the registry is empty (so after the
last buffer is unregistered, writes are unwrapped); the number of install
operations equals the number of empty-to-non-empty registry transitions, and
any non-empty sequence of fresh registrations performs exactly one install. -/
theorem registry_interception_invariant (tr : List Op) (ids : List Nat)
    (hids : ids ≠ []) :
    ((runTrace tr initSys).1.registry = [] →
       (runTrace tr initSys).1.streams.stdoutWrite = some .original ∧
       (runTrace tr initSys).1.streams.stderrWrite = some .original) ∧
    ((runTrace tr initSys).1.registry ≠ [] →
       (∃ k, (runTrace tr initSys).1.streams.stdoutWrite = some (.wrapped k) ∧
             (runTrace tr initSys).1.streams.stderrWrite = some (.wrapped k)) ∧
       (runTrace tr initSys).1.streams.oldOutWrite = some .original ∧
       (runTrace tr initSys).1.streams.oldErrWrite = some .original) ∧
    (runTrace tr initSys).1.streams.installCount = installsIn tr initSys ∧
    (runTrace (ids.map Op.start) initSys).1.streams.installCount = 1 := by
  have hinv := inv_runTrace tr initSys inv_initSys
  refine ⟨hinv.1, hinv.2.1, ?_, starts_installCount_one ids hids⟩
  have h := installCount_runTrace tr initSys
  simpa [initSys, initStreams] using h

/-- Witness for C1 at the singleton registration sequence. -/
theorem registry_interception_invariant_witness :
    (runTrace ([0].map Op.start) initSys).1.streams.installCount = 1 :=
  (registry_interception_invariant [] [0] (by decide)).2.2.2

/-- C2 counterexample: after `start(); finish()`, a second `finish()` is not
a benign no-op — it raises `KeyError` (the `_started` flag is never reset, so
the second call reaches `del self._buffer_registry[id(self)]` on a key that
was already removed). -/
theorem double_finish_raises_keyError :
    (runTrace [Op.start 0, Op.finish 0] initSys).2 = none ∧
    (runTrace [Op.start 0, Op.finish 0, Op.finish 0] initSys).2 =
      some Err.keyError := by
  exact ⟨rfl, rfl⟩

/-- C2 (amended): `start()` twice has no additional effect and `finish()`
without `start()` is a no-op, but a second `finish()` after a successful one
raises `KeyError`; the only state change of the erroring call is re-setting
the shutdown flag — no file growth, no artifact upload. -/
theorem lifecycle_idempotency_amended :
    (∀ (m : Nat) (s : Sys),
       stepStart m (stepStart m s).1 = ((stepStart m s).1, none)) ∧
    (∀ (m : Nat) (s : Sys), (s.monitors m).started = false →
       stepFinish m s = (s, none)) ∧
    (∀ (m : Nat) (s : Sys), (s.monitors m).started = true →
       (s.monitors m).buffer = [] → m ∉ s.registry →
       stepFinish m s =
         (setMonitor m { s.monitors m with shutdown := true } s, some .keyError)) :=
  ⟨stepStart_idem, stepFinish_not_started, stepFinish_finished_again⟩

/-- Witness for C2 (amended) at concrete states. -/
theorem lifecycle_idempotency_amended_witness :
    stepStart 0 (stepStart 0 initSys).1 = ((stepStart 0 initSys).1, none) ∧
    stepFinish 1 initSys = (initSys, none) ∧
    stepFinish 0 (runTrace [Op.start 0, Op.finish 0] initSys).1 =
      (setMonitor 0
        { (runTrace [Op.start 0, Op.finish 0] initSys).1.monitors 0 with
            shutdown := true }
        (runTrace [Op.start 0, Op.finish 0] initSys).1, some .keyError) :=
  ⟨lifecycle_idempotency_amended.1 0 initSys,
   lifecycle_idempotency_amended.2.1 1 initSys rfl,
   lifecycle_idempotency_amended.2.2 0 _ rfl rfl (by decide)⟩

/-- C3 counterexample: the line `ESC [ 1 ; 1 A` contains a cursor-up
sequence, no `0%`, no `[INFO]`, no `[DEBUG]`, and the shutdown flag is
false — yet the filter does not return an empty (or any) line: the dead
assignment `arg = int(arg.decode())` raises `ValueError` because the
parameter group `1;1` permitted by the regex is not a valid integer
literal. -/
theorem cursor_up_semicolon_valueError :
    hasCursorUpMatch [27, 91, 49, 59, 49, 65] = true ∧
    bytesIn pctBytes [27, 91, 49, 59, 49, 65] = false ∧
    bytesIn infoBytes [27, 91, 49, 59, 49, 65] = false ∧
    bytesIn debugBytes [27, 91, 49, 59, 49, 65] = false ∧
    handleCSI false [27, 91, 49, 59, 49, 65] = .error () := by
  exact ⟨rfl, by decide, by decide, by decide, rfl⟩

/-- C3 (amended): for every non-empty raw byte line on which no recognized
sequence has a parameter group containing a semicolon (otherwise `_handle_csi`
raises `ValueError`), the suppression loop yields the empty line exactly when
the line has a cursor-up match, does not contain `0%`, the shutdown flag is
false, and the line contains neither `[INFO]` nor `[DEBUG]`; afterwards all
recognized sequences are stripped, and with shutdown = true the sequence
bytes are removed while the remaining text is preserved (the result is a
sublist of the line). -/
theorem cursor_up_suppression_policy (sh : Bool) (l : List Nat)
    (hargs : allArgsParse l = true) (hne : l ≠ []) :
    (handleCSISuppress sh l = .ok [] ↔ suppressCond sh l = true) ∧
    handleCSI sh l = .ok (removeCSI (if suppressCond sh l then [] else l)) ∧
    (sh = true → handleCSI true l = .ok (removeCSI l) ∧
      List.Sublist (removeCSI l) l) := by
  refine ⟨?_, handleCSI_eq sh l hargs, ?_⟩
  · rw [handleCSISuppress_eq sh l hargs]
    constructor
    · intro h0
      by_cases hs : suppressCond sh l = true
      · exact hs
      · rw [if_neg hs] at h0
        simp at h0
        exact absurd h0 hne
    · intro hs
      rw [if_pos hs]
  · intro hsh
    subst hsh
    have hsc : suppressCond true l = false := by simp [suppressCond, keepCond]
    have h := handleCSI_eq true l hargs
    rw [hsc] at h
    simp only [Bool.false_eq_true, if_false] at h
    exact ⟨h, removeCSIAux_sublist l.length l⟩

/-- Witness for C3 (amended) at the line `ESC [ A x LF` with shutdown
false. -/
theorem cursor_up_suppression_policy_witness :
    (handleCSISuppress false [27, 91, 65, 120, 10] = .ok [] ↔
       suppressCond false [27, 91, 65, 120, 10] = true) ∧
    handleCSI false [27, 91, 65, 120, 10] =
      .ok (removeCSI (if suppressCond false [27, 91, 65, 120, 10] then []
        else [27, 91, 65, 120, 10])) ∧
    (false = true → handleCSI true [27, 91, 65, 120, 10] =
        .ok (removeCSI [27, 91, 65, 120, 10]) ∧
      List.Sublist (removeCSI [27, 91, 65, 120, 10]) [27, 91, 65, 120, 10]) :=
  cursor_up_suppression_policy false [27, 91, 65, 120, 10] rfl (by decide)

/-- C4 counterexample: the raw install/uninstall helpers are not no-ops when
misused — a second install overwrites the captured originals with the
previously installed wrapper, and an uninstall before any install assigns
`None` to the sink write attributes. -/
theorem unguarded_install_uninstall_counterexample :
    (installStreamPatches (installStreamPatches initStreams)).oldOutWrite =
      some (WriteFn.wrapped 0) ∧
    some (WriteFn.wrapped 0) ≠ some WriteFn.original ∧
    (uninstallStreamPatches initStreams).stdoutWrite = none := by
  exact ⟨rfl, by decide, rfl⟩

/-- C4 (amended): `_install_stream_patches` / `_uninstall_stream_patches`
are themselves unguarded, but their callers only install on the first
registration and only uninstall after the last deregistration, so along
every `start()`/`finish()` sequence the sink write functions never become
`None` and the captured "old" functions only ever hold `None` or the
pristine originals. -/
theorem guarded_patch_usage_keeps_sinks_valid (tr : List Op) :
    (runTrace tr initSys).1.streams.stdoutWrite ≠ none ∧
    (runTrace tr initSys).1.streams.stderrWrite ≠ none ∧
    ((runTrace tr initSys).1.streams.oldOutWrite = none ∨
      (runTrace tr initSys).1.streams.oldOutWrite = some .original) ∧
    ((runTrace tr initSys).1.streams.oldErrWrite = none ∨
      (runTrace tr initSys).1.streams.oldErrWrite = some .original) := by
  have hinv := inv_runTrace tr initSys inv_initSys
  by_cases hr : (runTrace tr initSys).1.registry = []
  · obtain ⟨ho, he⟩ := hinv.1 hr
    exact ⟨by rw [ho]; simp, by rw [he]; simp, hinv.2.2.1, hinv.2.2.2⟩
  · obtain ⟨⟨k, hko, hke⟩, -, -⟩ := hinv.2.1 hr
    exact ⟨by rw [hko]; simp, by rw [hke]; simp, hinv.2.2.1, hinv.2.2.2⟩

/-- C5 counterexample: with the default 30-second `log_time_interval`, a
shutdown flag set at time 1 is only observed at time 30 — a latency of 29
seconds, not bounded by the 1-second `log_capture_interval` as claimed (the
loop sleeps the full flush interval between shutdown checks). -/
theorem shutdown_latency_exceeds_capture_interval :
    collectorExitTime default_log_time_interval 1 = 30 ∧
    ¬(collectorExitTime default_log_time_interval 1 - 1 ≤ log_capture_interval) := by
  exact ⟨rfl, by decide⟩

/-- C5 (amended): once the shutdown flag is set, the collector thread exits
within one configured flush interval (`log_time_interval`, default 30 s) —
not within the 1-second capture threshold: the loop checks the flag once per
`sleep(log_time_interval)`. -/
theorem shutdown_latency_bounded_by_flush_interval (interval tSet : Nat)
    (hI : 1 ≤ interval) :
    tSet ≤ collectorExitTime interval tSet ∧
    collectorExitTime interval tSet < tSet + interval :=
  collectorExitTime_bounds interval tSet hI

/-- Witness for C5 (amended) at the default interval. -/
theorem shutdown_latency_bounded_by_flush_interval_witness :
    7 ≤ collectorExitTime 30 7 ∧ collectorExitTime 30 7 < 7 + 30 :=
  shutdown_latency_bounded_by_flush_interval 30 7 (by decide)

/-- C6 counterexample: with the token set to the empty string — present in
the environment but falsy — a failing health check still appends the
"did you forget to turn authentication on" hint, so the message does not
distinguish the no-token case from the token-present-but-rejected case
exactly as claimed. -/
theorem health_check_empty_token_counterexample :
    (health_check "http://server" (some "") "FAIL").2 =
      .error (healthErrorBase "http://server" ++ healthAuthHint) ∧
    some "" ≠ (none : Option String) := by
  exact ⟨rfl, by simp⟩

/-- C6 (amended): `health_check` issues a GET on `<uri>/health` with an
`Authorization: Bearer <token>` header and returns normally iff the body is
exactly `OK`; otherwise it raises a `ConnectionError` whose message names
the server, and the message carries the authentication hint exactly when the
token is falsy — absent or the empty string. -/
theorem health_check_behavior (uri : String) (token : Option String)
    (resp : String) :
    (health_check uri token resp).1.url = uri ++ "/health" ∧
    (health_check uri token resp).1.authHeader = "Bearer " ++ pyStrOfToken token ∧
    ((health_check uri token resp).2 = .ok () ↔ resp = "OK") ∧
    (resp ≠ "OK" →
      (health_check uri token resp).2 =
        .error (if pyFalsyToken token then healthErrorBase uri ++ healthAuthHint
                else healthErrorBase uri)) ∧
    (∃ a b, healthErrorBase uri = a ++ uri ++ b) ∧
    (resp ≠ "OK" →
      ((health_check uri token resp).2 =
          .error (healthErrorBase uri ++ healthAuthHint) ↔
        pyFalsyToken token = true)) := by
  have hreq : (health_check uri token resp).1 =
      { url := uri ++ "/health", authHeader := "Bearer " ++ pyStrOfToken token } := by
    by_cases hr : resp = "OK" <;> simp [health_check, hr]
  refine ⟨by rw [hreq], by rw [hreq], ?_, ?_, ?_, ?_⟩
  · by_cases hr : resp = "OK" <;> simp [health_check, hr]
  · intro hr
    simp [health_check, hr]
  · exact ⟨"Could not connect to MLflow server at ", ". ", rfl⟩
  · intro hr
    by_cases ht : pyFalsyToken token = true
    · have h2 : (health_check uri token resp).2 =
          .error (healthErrorBase uri ++ healthAuthHint) := by
        simp [health_check, hr, ht]
      rw [h2]
      simp [ht]
    · have h2 : (health_check uri token resp).2 = .error (healthErrorBase uri) := by
        simp [health_check, hr, ht]
      rw [h2]
      constructor
      · intro hcon
        simp only [Except.error.injEq] at hcon
        exact absurd hcon (healthErrorBase_ne_hint uri)
      · intro hcon
        exact absurd hcon ht

/-- Witness for C6 (amended) at concrete inputs. -/
theorem health_check_behavior_witness :
    ((health_check "http://srv" none "OK").2 = .ok () ↔ ("OK" : String) = "OK") ∧
    (health_check "http://srv" none "BAD").2 =
      .error (if pyFalsyToken none then healthErrorBase "http://srv" ++ healthAuthHint
              else healthErrorBase "http://srv") :=
  ⟨(health_check_behavior "http://srv" none "OK").2.2.1,
   (health_check_behavior "http://srv" none "BAD").2.2.2.1 (by decide)⟩

/-- C7 counterexample: the filter is not idempotent — stripping the nested
sequence in `ESC [ ESC [ A A` (with shutdown = true) produces `ESC [ A`,
a new cursor-up sequence, which a second application removes entirely. -/
theorem filter_not_idempotent_counterexample :
    filterLine true [27, 91, 27, 91, 65, 65] = .ok [27, 91, 65] ∧
    filterLine true [27, 91, 65] = .ok [] ∧
    ([] : List Nat) ≠ [27, 91, 65] := by
  exact ⟨rfl, rfl, by decide⟩

/-- C7 (amended): the filter is idempotent on every line whose filtered form
contains no residual recognized control sequence — removing matches can
splice adjacent fragments into a new match, and only then does a second
application act again. -/
theorem filter_idempotent_on_fully_stripped (sh : Bool) (l r : List Nat)
    (h : filterLine sh l = .ok r) (hm : csiMatches r.length r = []) :
    filterLine sh r = .ok r :=
  filterLine_fixed sh r hm (filterLine_ok_no_cr h)

/-- Witness for C7 (amended): the line `ESC [ B x` filters to `x`, on which
the filter is a fixed point. -/
theorem filter_idempotent_on_fully_stripped_witness :
    filterLine false [120] = .ok [120] :=
  filter_idempotent_on_fully_stripped false [27, 91, 66, 120] [120] rfl rfl

/-- C8: carriage-return handling is unconditional — every line, after
control-sequence handling, is truncated to the content after its last
carriage return before being written (`afterLastCR` keeps exactly the
suffix after the final CR and is the identity on CR-free lines), and
filtering the string `A\rB\rC` yields `C`. -/
theorem carriage_return_truncation :
    (∀ (sh : Bool) (l r : List Nat), handleCSI sh l = .ok r →
       filterLine sh l = .ok (afterLastCR r)) ∧
    (∀ xs ys : List Nat, 13 ∉ ys → afterLastCR (xs ++ 13 :: ys) = ys) ∧
    (∀ l : List Nat, 13 ∉ l → afterLastCR l = l) ∧
    (∀ sh : Bool, filterLine sh [65, 13, 66, 13, 67] = .ok [67]) := by
  refine ⟨fun sh l r h => filterLine_of_handleCSI h, afterLastCR_append,
    fun l h => afterLastCR_of_not_mem h, fun sh => ?_⟩
  cases sh <;> rfl

/-- Witness for C8 at concrete lines. -/
theorem carriage_return_truncation_witness :
    filterLine false [65, 13, 66, 13, 67] =
      .ok (afterLastCR [65, 13, 66, 13, 67]) ∧
    afterLastCR ([65, 13, 66] ++ 13 :: [67]) = [67] ∧
    afterLastCR [67] = [67] :=
  ⟨carriage_return_truncation.1 false [65, 13, 66, 13, 67] [65, 13, 66, 13, 67] rfl,
   carriage_return_truncation.2.1 [65, 13, 66] [67] (by decide),
   carriage_return_truncation.2.2.1 [67] (by decide)⟩

/-- C9: calling the flush routine with an empty capture buffer (position
zero) is a complete no-op — the state, including the log-file content, the
file-open count and the artifact-upload count, is returned unchanged and no
error is raised. -/
theorem flush_empty_buffer_noop (mo : MonitorState) (h : mo.buffer = []) :
    storeBufferedLogs mo = (mo, none) := by
  simp [storeBufferedLogs, h]

/-- Witness for C9 at a fresh monitor. -/
theorem flush_empty_buffer_noop_witness :
    storeBufferedLogs initMonitor = (initMonitor, none) :=
  flush_empty_buffer_noop initMonitor rfl

/-- C10: with hyperparameter logging enabled, `log_hyperparams` removes
every flattened parameter whose key starts with one of the configured
prefixes, truncates every remaining value to its first 250 characters, and
sends the survivors in order in `log_batch` calls of at most 100 parameters
each — exactly `ceil(N/100)` calls for `N` survivors, and none when the
flag is off. -/
theorem log_hyperparams_clean_truncate_batch (params : List (String × String)) :
    (log_hyperparams true params).flatten = mkParamList (clean_params params) ∧
    (∀ kv : String × String, kv ∈ clean_params params ↔
       kv ∈ params ∧
         (prefixes_to_remove.any (fun p => strStartsWith p kv.1)) = false) ∧
    (∀ q ∈ (log_hyperparams true params).flatten,
       q.value.length ≤ 250 ∧
       ∃ kv ∈ clean_params params, q.key = kv.1 ∧ q.value = strTake kv.2 250) ∧
    (∀ b ∈ log_hyperparams true params, b ≠ [] ∧ b.length ≤ 100) ∧
    (log_hyperparams true params).length =
      ((clean_params params).length + 99) / 100 ∧
    log_hyperparams false params = [] := by
  have hflat : (log_hyperparams true params).flatten =
      mkParamList (clean_params params) := by
    simp only [log_hyperparams, if_true]
    exact batchesAux_flatten _ _ (Nat.le_refl _)
  refine ⟨hflat, ?_, ?_, ?_, ?_, rfl⟩
  · intro kv
    simp [clean_params, List.mem_filter]
  · intro q hq
    rw [hflat] at hq
    simp only [mkParamList, List.mem_map] at hq
    obtain ⟨kv, hkv, hq⟩ := hq
    subst hq
    refine ⟨?_, kv, hkv, rfl, rfl⟩
    show (kv.2.data.take 250).length ≤ 250
    have h250 := List.length_take 250 kv.2.data
    omega
  · intro b hb
    simp only [log_hyperparams, if_true] at hb
    exact batchesAux_mem _ _ b hb
  · simp only [log_hyperparams, if_true]
    rw [batchesAux_length _ _ (Nat.le_refl _)]
    simp [mkParamList]

/-- Witness for C10 at a concrete parameter dict: of the two flattened
parameters, `model.depth` is removed and `foo` survives, truncated. -/
theorem log_hyperparams_clean_truncate_batch_witness :
    (⟨"foo", strTake "y" 250⟩ : MParam).value.length ≤ 250 ∧
    ∃ kv ∈ clean_params [("model.depth", "x"), ("foo", "y")],
      (⟨"foo", strTake "y" 250⟩ : MParam).key = kv.1 ∧
      (⟨"foo", strTake "y" 250⟩ : MParam).value = strTake kv.2 250 :=
  (log_hyperparams_clean_truncate_batch
      [("model.depth", "x"), ("foo", "y")]).2.2.1
    ⟨"foo", strTake "y" 250⟩
    (by
      rw [(log_hyperparams_clean_truncate_batch
        [("model.depth", "x"), ("foo", "y")]).1]
      have hcl : clean_params [("model.depth", "x"), ("foo", "y")] =
          [("foo", "y")] := by decide
      show (⟨"foo", strTake "y" 250⟩ : MParam) ∈
        mkParamList (clean_params [("model.depth", "x"), ("foo", "y")])
      rw [hcl]
      exact List.Mem.head _)

end AnemoiLogger
